import Mathlib

/-!
# Verification of the dota-stats match ingestion pipeline

Shallow embedding of `fetch.py` of the dota-stats repository: the retry
loop of `process_match`, its filter rules, the in-run dedup cache, the
storage writes, the `workflow_stats` progress ledger and the paging loop
of `fetch_matches`, together with a model of the compression round trip.

External tables and services that the script reads (`meta.MODE_ENUM`,
`meta.HERO_DICT`, the local-timezone batch-time formatting of the start
time) are passed as explicit function parameters: the theorems hold for
every instantiation of those parameters.
-/

namespace DotaStats

/-- A non-empty player object of a raw match.  Only the fields the
pipeline reads are modelled; `leaver_status` is optional because the raw
API object may lack it (fetch.py reads it inside a try/except at lines
185-189 and again, unguarded, in the 29-field copy at line 203). -/
structure PlayerObj where
  player_slot : Int
  hero_id : Int
  leaver_status : Option Int
  deriving DecidableEq, Repr

/-- A raw match as consumed by `process_match` in fetch.py.  A player
entry `none` models the empty JSON object that the filter at line 178
rejects. -/
structure RawMatch where
  match_id : Int
  start_time : Int
  duration : Int
  lobby_type : Int
  game_mode : Int
  players : List (Option PlayerObj)
  deriving DecidableEq, Repr

/-- Game-mode names accepted by the filter (fetch.py lines 156-157). -/
def GOOD_MODES : List String :=
  ["All Pick", "Captains Mode", "Random Draft", "Single Draft",
   "All Random", "Least Played"]

/-- Lobby types rejected as bot or practice lobbies (fetch.py line 170). -/
def BAD_LOBBIES : List Int := [-1, 4, 8]

/-- Per-partition quota constant of fetch.py line 34. -/
def MATCHES_PER_HERO : Int := 10

/-- The escalating sleep schedule of fetch.py line 114, in seconds. -/
def SLEEP_SCHEDULE : List ℚ :=
  [1/20, 1/10, 1, 10, 30, 60, 300, 500, 1000, 2000, 6000]

/-- Result of the retry loop of fetch.py lines 115-125: the sleeps
performed in order, the number of HTTP attempts made, and the final
value of the response variable (`none` when no attempt ever assigned
it, i.e. every attempt raised). -/
structure RetryResult where
  sleeps : List ℚ
  attempts : Nat
  rv : Option Nat
  deriving DecidableEq, Repr

/-- The body of the retry loop; `att k` is the outcome of the k-th HTTP
attempt, `none` modelling a raised network exception (swallowed by the
bare except at lines 123-124) and `some c` a response with status `c`.
`count` and `rv` are the loop variables; the fuel argument counts the
iterations the guard `count < 10` still allows. -/
def retryAux (att : Nat → Option Nat) : Nat → Option Nat → Nat → RetryResult
  | count, rv, 0 => ⟨[], count, rv⟩
  | count, rv, fuel + 1 =>
    let s := SLEEP_SCHEDULE.getD count 0
    match att count with
    | some c =>
      if c = 200 then ⟨[s], count + 1, some c⟩
      else
        let r := retryAux att (count + 1) (some c) fuel
        ⟨s :: r.sleeps, r.attempts, r.rv⟩
    | none =>
      let r := retryAux att (count + 1) rv fuel
      ⟨s :: r.sleeps, r.attempts, r.rv⟩

/-- The retry loop `while not(fetched) and count<10` of fetch.py lines
115-125, started at `count = 0` with the response variable unbound. -/
def retryLoop (att : Nat → Option Nat) : RetryResult :=
  retryAux att 0 none 10

/-- Outcome of one `process_match` call, one constructor per distinct
return or raise of fetch.py: the sentinel return codes -44, -32, -1, -2,
-3, -4 and -43, the raise on an unmapped game mode (line 162), the
uncaught KeyError during player encoding, the NameError on the unbound
response variable at line 128, and the successful return of the batch
time (line 273). -/
inductive Outcome
  | crashNameError
  | fetchFailed
  | dupSkip
  | rejBadMode
  | rejShortDuration
  | rejBadLobby
  | rejMissingPlayers
  | rejLeaver
  | integrityError (mode : Int)
  | encodingCrash
  | success (batchTime : Int)
  deriving DecidableEq, Repr

/-- Result of one `process_match` call: its outcome, the dedup cache
(the global `batch_match` keys) after the call, the keys written to the
match table by the call, and the players encoded by the call. -/
structure ProcessResult where
  outcome : Outcome
  cache : List (Int × Int)
  writes : List (Int × Int)
  encoded : List PlayerObj
  deriving DecidableEq, Repr

/-- Running maximum of the leaver statuses (fetch.py lines 174 and
185-189): the field read sits in a try/except, so a player without the
field, or an empty player object, leaves the accumulator unchanged. -/
def calcLeaver (players : List (Option PlayerObj)) : Int :=
  players.foldl
    (fun acc p =>
      match p with
      | none => acc
      | some q =>
        match q.leaver_status with
        | some l => if acc < l then l else acc
        | none => acc)
    0

/-- The filter decision of `process_match`, extracted in code order:
game mode (fetch.py lines 154-162), duration (line 165), lobby type
(line 170), empty player objects (line 178), leaver maximum (line 233).
`modeEnum` stands for the external table `meta.MODE_ENUM`; a key miss
there is the raise of line 162. -/
inductive FilterResult
  | accept
  | rejectBadMode
  | rejectShortDuration
  | rejectBadLobby
  | rejectMissingPlayers
  | rejectLeaver
  | integrityError (mode : Int)
  deriving DecidableEq, Repr

def classify (modeEnum : Int → Option String) (m : RawMatch) : FilterResult :=
  match modeEnum m.game_mode with
  | none => .integrityError m.game_mode
  | some name =>
    if name ∈ GOOD_MODES then
      if m.duration < 1200 then .rejectShortDuration
      else if m.lobby_type ∈ BAD_LOBBIES then .rejectBadLobby
      else if none ∈ m.players then .rejectMissingPlayers
      else if 1 < calcLeaver m.players then .rejectLeaver
      else .accept
    else .rejectBadMode

/-- The per-player loop of fetch.py lines 183-231: updates the running
leaver maximum, looks the hero id up in the external `meta.HERO_DICT`
table (an uncaught KeyError on a miss, line 198), copies the 29 fixed
fields (an uncaught KeyError when `leaver_status` is absent, line 203;
the remaining 28 fields are present by construction of `PlayerObj`),
and emits the encoded player.  `none` models the crash; an empty player
object reaching the loop would also crash on its first field access. -/
def processPlayers (heroDict : Int → Option String) :
    List (Option PlayerObj) → Int → Option (Int × List PlayerObj)
  | [], acc => some (acc, [])
  | none :: _, _ => none
  | some p :: rest, acc =>
    let acc2 :=
      match p.leaver_status with
      | some l => if acc < l then l else acc
      | none => acc
    match heroDict p.hero_id with
    | none => none
    | some _ =>
      match p.leaver_status with
      | none => none
      | some _ =>
        match processPlayers heroDict rest acc2 with
        | none => none
        | some (l, es) => some (l, p :: es)

/-- Composite dedup key of fetch.py line 142: the string built from
batch time, an underscore, and the match id is modelled as the pair
(the separator makes the concatenation injective).  `btOf` stands for
the batch-time formatting of the start time at line 140. -/
def dedupKey (btOf : Int → Int) (m : RawMatch) : Int × Int :=
  (btOf m.start_time, m.match_id)

/-- The part of `process_match` past the dedup check (fetch.py lines
149-273) on a match whose key was fresh and has just been marked:
filters in source order, then the player loop, the leaver check, the
storage write and the successful return. -/
def process_fresh (modeEnum : Int → Option String)
    (heroDict : Int → Option String) (btOf : Int → Int)
    (cache : List (Int × Int)) (m : RawMatch) : ProcessResult :=
  match modeEnum m.game_mode with
      | none => ⟨.integrityError m.game_mode, dedupKey btOf m :: cache, [], []⟩
      | some name =>
        if name ∈ GOOD_MODES then
          if m.duration < 1200 then
            ⟨.rejShortDuration, dedupKey btOf m :: cache, [], []⟩
          else if m.lobby_type ∈ BAD_LOBBIES then
            ⟨.rejBadLobby, dedupKey btOf m :: cache, [], []⟩
          else if none ∈ m.players then
            ⟨.rejMissingPlayers, dedupKey btOf m :: cache, [], []⟩
          else
            match processPlayers heroDict m.players 0 with
            | none => ⟨.encodingCrash, dedupKey btOf m :: cache, [], []⟩
            | some (leaver, encoded) =>
              if 1 < leaver then
                ⟨.rejLeaver, dedupKey btOf m :: cache, [], encoded⟩
              else
                ⟨.success (btOf m.start_time), dedupKey btOf m :: cache,
                  [dedupKey btOf m], encoded⟩
        else ⟨.rejBadMode, dedupKey btOf m :: cache, [], []⟩

/-- `process_match` of fetch.py lines 113-273, as a function of the
final response status `rv` of the retry loop (`none` when every attempt
raised, leaving the variable unbound and line 128 a NameError): the
response check of line 128, the dedup check and mark of lines 142-147,
then `process_fresh`.  The storage put is modelled as succeeding. -/
def process_match (modeEnum : Int → Option String)
    (heroDict : Int → Option String) (btOf : Int → Int) (rv : Option Nat)
    (cache : List (Int × Int)) (m : RawMatch) : ProcessResult :=
  match rv with
  | none => ⟨.crashNameError, cache, [], []⟩
  | some c =>
    if c ≠ 200 then ⟨.fetchFailed, cache, [], []⟩
    else if dedupKey btOf m ∈ cache then ⟨.dupSkip, cache, [], []⟩
    else process_fresh modeEnum heroDict btOf cache m

/-- A row of the `workflow_stats` table of fetch.py line 323, columns in
table order: batch_time, updated_epoch, fetch, pair. -/
structure StatsRow where
  batch_time : Int
  updated_epoch : Int
  fetch : Int
  pair : Int
  deriving DecidableEq, Repr

/-- SELECT * FROM workflow_stats WHERE batch_time=? followed by
fetchone (fetch.py lines 297-298): the first matching row, if any. -/
def selectRow (ledger : List StatsRow) (bt : Int) : Option StatsRow :=
  ledger.find? (fun r => r.batch_time == bt)

/-- The read-modify-write of fetch.py lines 297-305: with no row for the
batch time, INSERT one with fetch count 1 and pair count 0; otherwise
UPDATE every row of that batch time, refreshing the timestamp and
setting the fetch count to the fetched row's count plus one. -/
def record_success (now bt : Int) (ledger : List StatsRow) : List StatsRow :=
  match selectRow ledger bt with
  | none => ledger ++ [⟨bt, now, 1, 0⟩]
  | some row =>
    ledger.map fun r =>
      if r.batch_time == bt then ⟨r.batch_time, now, row.fetch + 1, r.pair⟩
      else r

/-- `record_success` iterated: the n-th further call uses timestamp
`times n`. -/
def recordN (times : Nat → Int) (bt : Int) (L : List StatsRow) :
    Nat → List StatsRow
  | 0 => L
  | n + 1 => record_success (times n) bt (recordN times bt L n)

/-- Timestamp of the last of the calls counted by `recordN`, the first
call having used `t0`. -/
def lastTime (t0 : Int) (times : Nat → Int) : Nat → Int
  | 0 => t0
  | n + 1 => times n

/-- State of the fetch_matches loop (fetch.py lines 276-311): the match
counter, the dedup cache, the progress ledger, the keys written to the
match table, the paging cursor `start_at_match_id`, and the match ids
of the last non-empty page (`none` while the variable `ms` of line 289
is still unbound). -/
structure DriverState where
  counter : Int
  cache : List (Int × Int)
  ledger : List StatsRow
  writes : List (Int × Int)
  cursor : Int
  lastMs : Option (List Int)
  deriving DecidableEq, Repr

/-- Does this `process_match` outcome abort the run?  The raise on an
unmapped mode, the KeyError of the player loop and the NameError of the
unbound response variable all propagate out of fetch_matches. -/
def crashes : Outcome → Bool
  | .crashNameError => true
  | .integrityError _ => true
  | .encodingCrash => true
  | _ => false

/-- The batch time carried by a successful return; the sentinel codes of
the other returns are all negative, so the guard `batch_time > 0` of
fetch.py line 295 can only fire on a success. -/
def successBT : Outcome → Option Int
  | .success bt => some bt
  | _ => none

/-- The per-page match loop of fetch.py lines 290-307: each match is
processed (its detail fetch modelled as returning HTTP 200), a positive
returned batch time is recorded in the ledger, and the counter is
incremented for every match regardless of outcome.  `none` models an
exception escaping `process_match` and aborting the run. -/
def processMatches (modeEnum : Int → Option String)
    (heroDict : Int → Option String) (btOf : Int → Int) (now : Int) :
    List RawMatch → DriverState → Option DriverState
  | [], st => some st
  | m :: rest, st =>
    let r := process_match modeEnum heroDict btOf (some 200) st.cache m
    if crashes r.outcome then none
    else
      let led :=
        match successBT r.outcome with
        | some bt => if 0 < bt then record_success now bt st.ledger else st.ledger
        | none => st.ledger
      processMatches modeEnum heroDict btOf now rest
        ⟨st.counter + 1, r.cache, led, st.writes ++ r.writes, st.cursor, st.lastMs⟩

/-- Python `min` over a non-empty list of match ids (fetch.py line 308);
the empty case is unreachable there because `ms` is only rebuilt from a
page with results. -/
def minList : List Int → Int
  | [] => 0
  | [x] => x
  | x :: y :: rest => min x (minList (y :: rest))

/-- One iteration of the while loop of fetch_matches on a successful
HTTP response (fetch.py lines 286-308): a page with results is
processed and `ms` rebuilt from it; then the cursor becomes the minimum
id of `ms` minus one.  A page without results leaves `ms` alone, so the
cursor is recomputed from the previous page, and with no previous page
the variable is unbound (a NameError, modelled as `none`). -/
def stepPage (modeEnum : Int → Option String)
    (heroDict : Int → Option String) (btOf : Int → Int) (now : Int)
    (st : DriverState) (page : List RawMatch) : Option DriverState :=
  if page.isEmpty then
    match st.lastMs with
    | none => none
    | some ms =>
      some ⟨st.counter, st.cache, st.ledger, st.writes, minList ms - 1, st.lastMs⟩
  else
    match processMatches modeEnum heroDict btOf now page st with
    | none => none
    | some st2 =>
      let ms := page.map (fun m => m.match_id)
      some ⟨st2.counter, st2.cache, st2.ledger, st2.writes, minList ms - 1, some ms⟩

/-- How a modelled run of the fetch loop ended: an exception escaped;
the loop guard `counter <= MATCHES_PER_HERO` failed and the loop
stopped; or the supplied trace of upstream responses ran out with the
guard still true (the real loop would keep polling: nothing in it
reacts to an empty result set). -/
inductive RunOutcome
  | crashed
  | stopped
  | exhausted
  deriving DecidableEq, Repr

/-- Result of a modelled run: how it ended, the final loop state (lost
when an exception escaped), and how many upstream responses the loop
consumed. -/
structure RunResult where
  outcome : RunOutcome
  state : Option DriverState
  pagesFetched : Nat
  deriving DecidableEq, Repr

/-- The while loop of fetch_matches (fetch.py lines 281-308) over the
successive upstream responses, each given as its page of matches. -/
def runPages (modeEnum : Int → Option String)
    (heroDict : Int → Option String) (btOf : Int → Int) (now : Int)
    (st : DriverState) : List (List RawMatch) → RunResult
  | [] =>
    if st.counter ≤ MATCHES_PER_HERO then ⟨.exhausted, some st, 0⟩
    else ⟨.stopped, some st, 0⟩
  | page :: rest =>
    if st.counter ≤ MATCHES_PER_HERO then
      match stepPage modeEnum heroDict btOf now st page with
      | none => ⟨.crashed, none, 1⟩
      | some st2 =>
        let r := runPages modeEnum heroDict btOf now st2 rest
        ⟨r.outcome, r.state, r.pagesFetched + 1⟩
    else ⟨.stopped, some st, 0⟩

/-- Modelled from the spec: MatchCompressor.  The compressor applied to
the serialized player blob at fetch.py line 259 is the external lzma
library, which is not code of this repository; the spec only requires a
lossless byte-to-byte codec, modelled here as a run-length coder whose
output flattens count-value pairs into a byte list. -/
def compress : List Nat → List Nat
  | [] => []
  | x :: xs =>
    match compress xs with
    | n :: y :: rest => if x = y then (n + 1) :: y :: rest else 1 :: x :: n :: y :: rest
    | _ => [1, x]

/-- Modelled from the spec: MatchCompressor's inverse, expanding each
count-value pair. -/
def decompress : List Nat → List Nat
  | n :: y :: rest => List.replicate n y ++ decompress rest
  | _ => []

/-! ## Concrete instances used by the witnesses

`modeEnum0` and `heroDict0` instantiate the external `meta.MODE_ENUM`
and `meta.HERO_DICT` tables, which are not under src; only membership
of the mapped name in the accepted set matters to any claim.  `btOf0`
instantiates the batch-time formatting (hour bucket of the start time,
rendered as a calendar-hour integer in the script). -/

/-- Modelled from the spec: a concrete instance of the external
`meta.MODE_ENUM` table, mapping some mode ids to names, six of which
are the accepted ones. -/
def modeEnum0 : Int → Option String := fun g =>
  if g = 1 then some "All Pick"
  else if g = 2 then some "Captains Mode"
  else if g = 3 then some "Random Draft"
  else if g = 4 then some "Single Draft"
  else if g = 5 then some "All Random"
  else if g = 12 then some "Least Played"
  else if g = 7 then some "Diretide"
  else none

/-- Modelled from the spec: a concrete instance of the external
`meta.HERO_DICT` table (only definedness matters to the claims). -/
def heroDict0 : Int → Option String := fun h =>
  if 1 ≤ h ∧ h ≤ 130 then some "hero" else none

/-- A concrete batch-time bucketing of the start time. -/
def btOf0 : Int → Int := fun t => 2024010100 + t / 3600

/-- A fully populated player in the given slot with the given hero. -/
def okPlayer (slot hero : Int) : PlayerObj := ⟨slot, hero, some 0⟩

/-- A match passing every filter rule. -/
def exAccept : RawMatch :=
  ⟨100, 0, 1800, 0, 1,
   [some (okPlayer 0 1), some (okPlayer 1 2),
    some (okPlayer 128 3), some (okPlayer 129 4)]⟩

/-- The same match with a short duration. -/
def exShort : RawMatch :=
  ⟨100, 0, 600, 0, 1,
   [some (okPlayer 0 1), some (okPlayer 1 2),
    some (okPlayer 128 3), some (okPlayer 129 4)]⟩

/-- The same match in a rejected lobby type. -/
def exBadLobby : RawMatch :=
  ⟨100, 0, 1800, 4, 1,
   [some (okPlayer 0 1), some (okPlayer 1 2),
    some (okPlayer 128 3), some (okPlayer 129 4)]⟩

/-- The same match with an empty player object present. -/
def exMissing : RawMatch :=
  ⟨100, 0, 1800, 0, 1,
   [some (okPlayer 0 1), none,
    some (okPlayer 128 3), some (okPlayer 129 4)]⟩

/-- The same match with a player whose leaver status exceeds one. -/
def exLeaver : RawMatch :=
  ⟨100, 0, 1800, 0, 1,
   [some (okPlayer 0 1), some ⟨1, 2, some 3⟩,
    some (okPlayer 128 3), some (okPlayer 129 4)]⟩

/-- The same match with a game mode missing from the mode table. -/
def exUnmapped : RawMatch :=
  ⟨100, 0, 1800, 0, 99,
   [some (okPlayer 0 1), some (okPlayer 1 2),
    some (okPlayer 128 3), some (okPlayer 129 4)]⟩

/-- A three-player match passing every rule (fewer than ten players). -/
def exThree : RawMatch :=
  ⟨100, 0, 1800, 0, 1,
   [some (okPlayer 0 1), some (okPlayer 1 2), some (okPlayer 5 3)]⟩

/-- A short-duration single-player match with the given id offset. -/
def shortMatch (i : Int) : RawMatch :=
  ⟨1000 + i, 0, 600, 0, 1, [some (okPlayer 0 1)]⟩

/-- A page of eleven short-duration matches: every one is rejected by
the duration rule, none is ingested. -/
def exPage1 : List RawMatch :=
  [shortMatch 0, shortMatch 1, shortMatch 2, shortMatch 3, shortMatch 4,
   shortMatch 5, shortMatch 6, shortMatch 7, shortMatch 8, shortMatch 9,
   shortMatch 10]

/-- A further non-empty page the upstream still has to offer. -/
def exPage2 : List RawMatch :=
  [⟨500, 0, 1800, 0, 1, [some (okPlayer 0 1)]⟩]

/-- The loop state at entry to fetch_matches (fetch.py lines 277-279). -/
def initState : DriverState := ⟨0, [], [], [], 9999999999, none⟩

/-- A single-match page with match id 1000. -/
def exPageA : List RawMatch := [shortMatch 0]

/-- A single-match page with match id 500. -/
def exPageB : List RawMatch := [⟨500, 0, 600, 0, 1, [some (okPlayer 0 1)]⟩]

/-- The driver state after `exPageA`. -/
def exStA : DriverState :=
  ⟨1, [(2024010100, 1000)], [], [], 999, some [1000]⟩

/-- The driver state after `exPageA` then `exPageB`. -/
def exStB : DriverState :=
  ⟨2, [(2024010100, 500), (2024010100, 1000)], [], [], 499, some [500]⟩

/-! ## Helper lemmas about `process_match` -/

/-- Reduction of `process_match` on a 200 response: the fetch check
passes and only the dedup decision remains. -/
theorem process_match_200 (modeEnum heroDict : Int → Option String)
    (btOf : Int → Int) (cache : List (Int × Int)) (m : RawMatch) :
    process_match modeEnum heroDict btOf (some 200) cache m
      = if dedupKey btOf m ∈ cache then ⟨.dupSkip, cache, [], []⟩
        else process_fresh modeEnum heroDict btOf cache m := rfl

/-- With a 200 response and the key already cached, `process_match` is
the duplicate skip of fetch.py line 145: same cache, no write, no
encoding. -/
theorem process_match_seen (modeEnum heroDict : Int → Option String)
    (btOf : Int → Int) (cache : List (Int × Int)) (m : RawMatch)
    (hkey : dedupKey btOf m ∈ cache) :
    process_match modeEnum heroDict btOf (some 200) cache m
      = ⟨.dupSkip, cache, [], []⟩ := by
  rw [process_match_200, if_pos hkey]

/-- With a 200 response and a fresh key, `process_match` runs the
post-dedup pipeline. -/
theorem process_match_fresh (modeEnum heroDict : Int → Option String)
    (btOf : Int → Int) (cache : List (Int × Int)) (m : RawMatch)
    (hkey : dedupKey btOf m ∉ cache) :
    process_match modeEnum heroDict btOf (some 200) cache m
      = process_fresh modeEnum heroDict btOf cache m := by
  rw [process_match_200, if_neg hkey]

/-- The post-dedup pipeline marks the key in the dedup cache whatever it
goes on to decide (the mark at fetch.py line 147 precedes every
filter), and it writes exactly the key on a successful return and
nothing on any other outcome. -/
theorem process_fresh_spec (modeEnum heroDict : Int → Option String)
    (btOf : Int → Int) (cache : List (Int × Int)) (m : RawMatch) :
    (process_fresh modeEnum heroDict btOf cache m).cache
        = dedupKey btOf m :: cache
    ∧ ((process_fresh modeEnum heroDict btOf cache m).writes
          = [dedupKey btOf m]
        ∧ (∃ bt, (process_fresh modeEnum heroDict btOf cache m).outcome
            = Outcome.success bt)
      ∨ ((process_fresh modeEnum heroDict btOf cache m).writes = []
        ∧ ∀ bt, (process_fresh modeEnum heroDict btOf cache m).outcome
            ≠ Outcome.success bt)) := by
  unfold process_fresh
  cases hm : modeEnum m.game_mode with
  | none => exact ⟨rfl, Or.inr ⟨rfl, fun bt h => by cases h⟩⟩
  | some name =>
    dsimp only
    by_cases hg : name ∈ GOOD_MODES
    · rw [if_pos hg]
      by_cases h1 : m.duration < 1200
      · rw [if_pos h1]; exact ⟨rfl, Or.inr ⟨rfl, fun bt h => by cases h⟩⟩
      · rw [if_neg h1]
        by_cases h2 : m.lobby_type ∈ BAD_LOBBIES
        · rw [if_pos h2]; exact ⟨rfl, Or.inr ⟨rfl, fun bt h => by cases h⟩⟩
        · rw [if_neg h2]
          by_cases h3 : none ∈ m.players
          · rw [if_pos h3]; exact ⟨rfl, Or.inr ⟨rfl, fun bt h => by cases h⟩⟩
          · rw [if_neg h3]
            cases hp : processPlayers heroDict m.players 0 with
            | none => exact ⟨rfl, Or.inr ⟨rfl, fun bt h => by cases h⟩⟩
            | some pr =>
              obtain ⟨l, es⟩ := pr
              dsimp only
              by_cases hl : 1 < l
              · exact ⟨by rw [if_pos hl], Or.inr ⟨by rw [if_pos hl],
                  fun bt h => by rw [if_pos hl] at h; cases h⟩⟩
              · exact ⟨by rw [if_neg hl], Or.inl ⟨by rw [if_neg hl],
                  ⟨btOf m.start_time, by rw [if_neg hl]⟩⟩⟩
    · rw [if_neg hg]; exact ⟨rfl, Or.inr ⟨rfl, fun bt h => by cases h⟩⟩

/-! ## The claims -/

/-- C1: ingesting the same composite (batch time, match id) key twice in
one run yields exactly one storage write for that key: the first,
successful, attempt writes once, and the second attempt is the
duplicate skip, with no error and no further write. -/
theorem dedup_exactly_one_write (modeEnum heroDict : Int → Option String)
    (btOf : Int → Int) (cache : List (Int × Int)) (m m2 : RawMatch) (bt : Int)
    (hkey : dedupKey btOf m ∉ cache)
    (hkey2 : dedupKey btOf m2 = dedupKey btOf m)
    (hfirst : (process_match modeEnum heroDict btOf (some 200) cache m).outcome
        = Outcome.success bt) :
    (process_match modeEnum heroDict btOf (some 200) cache m).writes
        = [dedupKey btOf m]
    ∧ (process_match modeEnum heroDict btOf (some 200)
        (process_match modeEnum heroDict btOf (some 200) cache m).cache m2).outcome
        = Outcome.dupSkip
    ∧ (process_match modeEnum heroDict btOf (some 200)
        (process_match modeEnum heroDict btOf (some 200) cache m).cache m2).writes
        = [] := by
  rw [process_match_fresh modeEnum heroDict btOf cache m hkey] at hfirst ⊢
  obtain ⟨hc, hw⟩ := process_fresh_spec modeEnum heroDict btOf cache m
  have hmem : dedupKey btOf m2
      ∈ (process_fresh modeEnum heroDict btOf cache m).cache := by
    rw [hc, hkey2]; exact List.mem_cons_self _ _
  have hsecond := process_match_seen modeEnum heroDict btOf
    (process_fresh modeEnum heroDict btOf cache m).cache m2 hmem
  refine ⟨?_, by rw [hsecond], by rw [hsecond]⟩
  rcases hw with ⟨hw1, _⟩ | ⟨_, hnone⟩
  · exact hw1
  · exact absurd hfirst (hnone bt)

/-- C1 witness: a concrete valid match ingested twice from an empty
cache. -/
theorem dedup_exactly_one_write_witness :
    (process_match modeEnum0 heroDict0 btOf0 (some 200) [] exAccept).writes
        = [dedupKey btOf0 exAccept]
    ∧ (process_match modeEnum0 heroDict0 btOf0 (some 200)
        (process_match modeEnum0 heroDict0 btOf0 (some 200) [] exAccept).cache
        exAccept).outcome = Outcome.dupSkip
    ∧ (process_match modeEnum0 heroDict0 btOf0 (some 200)
        (process_match modeEnum0 heroDict0 btOf0 (some 200) [] exAccept).cache
        exAccept).writes = [] :=
  dedup_exactly_one_write modeEnum0 heroDict0 btOf0 [] exAccept exAccept
    2024010100 (by simp) rfl rfl

/-- C9: the dedup key is checked and marked before any filter rule, so
even a match that a filter rejects leaves its key in the cache, and any
match with the same key processed afterwards in the run is the
duplicate skip, not the original reject. -/
theorem dedup_marked_before_filters (modeEnum heroDict : Int → Option String)
    (btOf : Int → Int) (cache : List (Int × Int)) (m m2 : RawMatch)
    (hkey : dedupKey btOf m ∉ cache)
    (hkey2 : dedupKey btOf m2 = dedupKey btOf m) :
    dedupKey btOf m
        ∈ (process_match modeEnum heroDict btOf (some 200) cache m).cache
    ∧ (process_match modeEnum heroDict btOf (some 200)
        (process_match modeEnum heroDict btOf (some 200) cache m).cache m2).outcome
        = Outcome.dupSkip := by
  rw [process_match_fresh modeEnum heroDict btOf cache m hkey]
  obtain ⟨hc, -⟩ := process_fresh_spec modeEnum heroDict btOf cache m
  have hmem : dedupKey btOf m2
      ∈ (process_fresh modeEnum heroDict btOf cache m).cache := by
    rw [hc, hkey2]; exact List.mem_cons_self _ _
  refine ⟨by rw [hc]; exact List.mem_cons_self _ _, ?_⟩
  rw [process_match_seen modeEnum heroDict btOf _ m2 hmem]

/-- C9 witness: a short-duration match is rejected by the duration rule
yet marks its key, and reprocessing it yields the duplicate skip rather
than the original reject. -/
theorem dedup_marked_before_filters_witness :
    (process_match modeEnum0 heroDict0 btOf0 (some 200) [] exShort).outcome
        = Outcome.rejShortDuration
    ∧ (dedupKey btOf0 exShort
        ∈ (process_match modeEnum0 heroDict0 btOf0 (some 200) [] exShort).cache
      ∧ (process_match modeEnum0 heroDict0 btOf0 (some 200)
          (process_match modeEnum0 heroDict0 btOf0 (some 200) [] exShort).cache
          exShort).outcome = Outcome.dupSkip) :=
  ⟨rfl, dedup_marked_before_filters modeEnum0 heroDict0 btOf0 [] exShort exShort
    (by simp) rfl⟩

/-- C7: a game mode missing from the mode table makes `process_match`
raise the integrity error, a distinct outcome from every filter reject,
before any player is encoded and before any storage write. -/
theorem unmapped_mode_integrity_error (modeEnum heroDict : Int → Option String)
    (btOf : Int → Int) (cache : List (Int × Int)) (m : RawMatch)
    (hkey : dedupKey btOf m ∉ cache)
    (hmode : modeEnum m.game_mode = none) :
    (process_match modeEnum heroDict btOf (some 200) cache m).outcome
        = Outcome.integrityError m.game_mode
    ∧ (process_match modeEnum heroDict btOf (some 200) cache m).writes = []
    ∧ (process_match modeEnum heroDict btOf (some 200) cache m).encoded = [] := by
  rw [process_match_fresh modeEnum heroDict btOf cache m hkey]
  unfold process_fresh
  rw [hmode]
  exact ⟨rfl, rfl, rfl⟩

/-- C7 witness: game mode 99 is unmapped; the integrity error is raised
with no write and no encoded player. -/
theorem unmapped_mode_integrity_error_witness :
    (process_match modeEnum0 heroDict0 btOf0 (some 200) [] exUnmapped).outcome
        = Outcome.integrityError 99
    ∧ (process_match modeEnum0 heroDict0 btOf0 (some 200) [] exUnmapped).writes = []
    ∧ (process_match modeEnum0 heroDict0 btOf0 (some 200) [] exUnmapped).encoded
        = [] :=
  unmapped_mode_integrity_error modeEnum0 heroDict0 btOf0 [] exUnmapped
    (by simp) rfl

/-- C2: a raw match whose game mode maps into the accepted set and that
satisfies the other four rules is accepted; violating exactly one of
the duration, lobby, empty-player or leaver rules while the others hold
yields that rule's specific reject reason. -/
theorem classify_rules (modeEnum : Int → Option String) (m : RawMatch)
    (hmode : ∃ s, modeEnum m.game_mode = some s ∧ s ∈ GOOD_MODES) :
    (1200 ≤ m.duration → m.lobby_type ∉ BAD_LOBBIES → none ∉ m.players →
        calcLeaver m.players ≤ 1 → classify modeEnum m = .accept)
    ∧ (m.duration < 1200 → m.lobby_type ∉ BAD_LOBBIES → none ∉ m.players →
        calcLeaver m.players ≤ 1 → classify modeEnum m = .rejectShortDuration)
    ∧ (1200 ≤ m.duration → m.lobby_type ∈ BAD_LOBBIES → none ∉ m.players →
        calcLeaver m.players ≤ 1 → classify modeEnum m = .rejectBadLobby)
    ∧ (1200 ≤ m.duration → m.lobby_type ∉ BAD_LOBBIES → none ∈ m.players →
        calcLeaver m.players ≤ 1 → classify modeEnum m = .rejectMissingPlayers)
    ∧ (1200 ≤ m.duration → m.lobby_type ∉ BAD_LOBBIES → none ∉ m.players →
        1 < calcLeaver m.players → classify modeEnum m = .rejectLeaver) := by
  obtain ⟨s, hs, hsg⟩ := hmode
  unfold classify
  rw [hs]
  dsimp only
  rw [if_pos hsg]
  refine ⟨fun h1 h2 h3 h4 => ?_, fun h1 h2 h3 h4 => ?_, fun h1 h2 h3 h4 => ?_,
    fun h1 h2 h3 h4 => ?_, fun h1 h2 h3 h4 => ?_⟩
  · rw [if_neg (not_lt.mpr h1), if_neg h2, if_neg h3, if_neg (not_lt.mpr h4)]
  · rw [if_pos h1]
  · rw [if_neg (not_lt.mpr h1), if_pos h2]
  · rw [if_neg (not_lt.mpr h1), if_neg h2, if_pos h3]
  · rw [if_neg (not_lt.mpr h1), if_neg h2, if_neg h3, if_pos h4]

/-- C2 witness: a valid match is accepted, and four matches each
violating one rule in isolation draw their specific reject reason. -/
theorem classify_rules_witness :
    classify modeEnum0 exAccept = FilterResult.accept
    ∧ classify modeEnum0 exShort = FilterResult.rejectShortDuration
    ∧ classify modeEnum0 exBadLobby = FilterResult.rejectBadLobby
    ∧ classify modeEnum0 exMissing = FilterResult.rejectMissingPlayers
    ∧ classify modeEnum0 exLeaver = FilterResult.rejectLeaver :=
  ⟨(classify_rules modeEnum0 exAccept ⟨"All Pick", rfl, by decide⟩).1
      (by decide) (by decide) (by decide) (by decide),
   (classify_rules modeEnum0 exShort ⟨"All Pick", rfl, by decide⟩).2.1
      (by decide) (by decide) (by decide) (by decide),
   (classify_rules modeEnum0 exBadLobby ⟨"All Pick", rfl, by decide⟩).2.2.1
      (by decide) (by decide) (by decide) (by decide),
   (classify_rules modeEnum0 exMissing ⟨"All Pick", rfl, by decide⟩).2.2.2.1
      (by decide) (by decide) (by decide) (by decide),
   (classify_rules modeEnum0 exLeaver ⟨"All Pick", rfl, by decide⟩).2.2.2.2
      (by decide) (by decide) (by decide) (by decide)⟩

/-- C10: the filter has no player-count rule: whenever no empty player
object is present, `classify` never returns the missing-players reject,
whatever the length of the player list. -/
theorem no_missing_players_reject (modeEnum : Int → Option String)
    (m : RawMatch) (h : none ∉ m.players) :
    classify modeEnum m ≠ FilterResult.rejectMissingPlayers := by
  unfold classify
  cases hm : modeEnum m.game_mode with
  | none => exact fun hcon => by cases hcon
  | some name =>
    dsimp only
    by_cases hg : name ∈ GOOD_MODES
    · rw [if_pos hg]
      by_cases h1 : m.duration < 1200
      · rw [if_pos h1]; exact fun hcon => by cases hcon
      · rw [if_neg h1]
        by_cases h2 : m.lobby_type ∈ BAD_LOBBIES
        · rw [if_pos h2]; exact fun hcon => by cases hcon
        · rw [if_neg h2, if_neg h]
          by_cases h4 : 1 < calcLeaver m.players
          · rw [if_pos h4]; exact fun hcon => by cases hcon
          · rw [if_neg h4]; exact fun hcon => by cases hcon
    · rw [if_neg hg]; exact fun hcon => by cases hcon

/-- C10 witness: a three-player match with no empty player object is
not rejected for missing players; indeed it is accepted. -/
theorem no_missing_players_reject_witness :
    classify modeEnum0 exThree ≠ FilterResult.rejectMissingPlayers
    ∧ classify modeEnum0 exThree = FilterResult.accept :=
  ⟨no_missing_players_reject modeEnum0 exThree (by decide), by decide⟩

/-- C3: the code violates the claim's no-crash guarantee.  With a
network exception on every attempt the retry loop makes its 10 attempts
(the guard is count < 10, so the schedule's final 6000-second entry is
never reached), sleeping the first 10 scheduled sleeps, and leaves the
response variable unbound, so `process_match` crashes with a NameError
instead of returning the non-fatal failure value; by contrast a
persistent non-success response does end in the non-fatal failure
return. -/
theorem retry_exhaustion_behaviour :
    (retryLoop (fun _ => none)).attempts = 10
    ∧ (retryLoop (fun _ => none)).sleeps = SLEEP_SCHEDULE.take 10
    ∧ (retryLoop (fun _ => none)).rv = none
    ∧ (process_match modeEnum0 heroDict0 btOf0 (retryLoop (fun _ => none)).rv
        [] exAccept).outcome = Outcome.crashNameError
    ∧ (retryLoop (fun _ => some 503)).attempts = 10
    ∧ (process_match modeEnum0 heroDict0 btOf0 (retryLoop (fun _ => some 503)).rv
        [] exAccept).outcome = Outcome.fetchFailed :=
  ⟨rfl, rfl, rfl, rfl, rfl, rfl⟩

/-! ## Helper lemmas about the progress ledger -/

/-- `find?` over a map by a function that preserves the predicate. -/
theorem find_map_pres {α : Type} (p : α → Bool) (f : α → α)
    (hf : ∀ a, p (f a) = p a) :
    ∀ L : List α, List.find? p (L.map f) = (List.find? p L).map f := by
  intro L
  induction L with
  | nil => rfl
  | cons a L ih =>
    cases hpa : p a with
    | true =>
      rw [List.map_cons, List.find?_cons_of_pos _ (by rw [hf a, hpa]),
          List.find?_cons_of_pos _ hpa]
      rfl
    | false =>
      rw [List.map_cons, List.find?_cons_of_neg _ (by simp [hf a, hpa]),
          List.find?_cons_of_neg _ (by simp [hpa]), ih]

/-- With no row for the batch time, `record_success` inserts the fresh
row with fetch count 1 and the call's timestamp. -/
theorem selectRow_record_fresh (L : List StatsRow) (now bt : Int)
    (h : selectRow L bt = none) :
    selectRow (record_success now bt L) bt = some ⟨bt, now, 1, 0⟩ := by
  unfold record_success
  rw [h]
  dsimp only
  unfold selectRow at h ⊢
  rw [List.find?_append, h, Option.none_or,
    List.find?_cons_of_pos _ (by simp)]

/-- With a row found for the batch time, `record_success` refreshes its
timestamp and adds one to its fetch count. -/
theorem selectRow_record_found (L : List StatsRow) (now bt : Int)
    (row : StatsRow) (h : selectRow L bt = some row) :
    selectRow (record_success now bt L) bt
      = some ⟨row.batch_time, now, row.fetch + 1, row.pair⟩ := by
  have hfind : List.find? (fun r : StatsRow => r.batch_time == bt) L = some row := h
  have hrow : (row.batch_time == bt) = true :=
    List.find?_some (p := fun r : StatsRow => r.batch_time == bt) hfind
  have hpres : ∀ r : StatsRow,
      (((if r.batch_time == bt
          then (⟨r.batch_time, now, row.fetch + 1, r.pair⟩ : StatsRow)
          else r).batch_time == bt)) = (r.batch_time == bt) := by
    intro r
    by_cases hr : (r.batch_time == bt) = true
    · rw [if_pos hr]
    · rw [if_neg hr]
  unfold record_success
  rw [h]
  dsimp only
  unfold selectRow at h ⊢
  rw [find_map_pres _ _ hpres L, h]
  dsimp only [Option.map]
  rw [if_pos hrow]

/-- `record_success` for one batch time leaves the row selected for a
different batch time untouched. -/
theorem selectRow_record_other (L : List StatsRow) (now bt bt2 : Int)
    (hne : bt2 ≠ bt) :
    selectRow (record_success now bt2 L) bt = selectRow L bt := by
  unfold record_success
  cases hsel : selectRow L bt2 with
  | none =>
    dsimp only
    unfold selectRow
    rw [List.find?_append]
    have hsingle :
        List.find? (fun r : StatsRow => r.batch_time == bt)
          ([⟨bt2, now, 1, 0⟩] : List StatsRow) = none := by
      rw [List.find?_cons_of_neg _ (by simp [hne])]
      rfl
    rw [hsingle, Option.or_none]
  | some row =>
    dsimp only
    unfold selectRow
    have hpres : ∀ r : StatsRow,
        (((if r.batch_time == bt2
            then (⟨r.batch_time, now, row.fetch + 1, r.pair⟩ : StatsRow)
            else r).batch_time == bt)) = (r.batch_time == bt) := by
      intro r
      by_cases hr : (r.batch_time == bt2) = true
      · rw [if_pos hr]
      · rw [if_neg hr]
    rw [find_map_pres _ _ hpres L]
    cases hbt : List.find? (fun r : StatsRow => r.batch_time == bt) L with
    | none => rfl
    | some r =>
      have hr : (r.batch_time == bt) = true :=
        List.find?_some (p := fun r : StatsRow => r.batch_time == bt) hbt
      have hr2 : ¬ (r.batch_time == bt2) = true := by
        simp only [beq_iff_eq] at hr ⊢
        rw [hr]
        exact fun hh => hne hh.symm
      dsimp only [Option.map]
      rw [if_neg hr2]

/-- Iterating `record_success` on a batch time whose row is present adds
one to the fetch count per call and keeps the last timestamp. -/
theorem recordN_count (times : Nat → Int) (bt : Int) :
    ∀ (N : Nat) (L : List StatsRow) (t c pr : Int),
      selectRow L bt = some ⟨bt, t, c, pr⟩ →
      selectRow (recordN times bt L N) bt
        = some ⟨bt, lastTime t times N, c + (N : Int), pr⟩ := by
  intro N
  induction N with
  | zero =>
    intro L t c pr h
    simpa [recordN, lastTime] using h
  | succ n ih =>
    intro L t c pr h
    have hn := ih L t c pr h
    have hstep := selectRow_record_found (recordN times bt L n) (times n) bt
      ⟨bt, lastTime t times n, c + (n : Int), pr⟩ hn
    rw [recordN, hstep]
    have harith : c + (n : Int) + 1 = c + ((n + 1 : Nat) : Int) := by
      push_cast
      ring
    rw [show (lastTime t times (n + 1)) = times n from rfl]
    exact congrArg some (by rw [harith])

/-- C4: the first `record_success` for a fresh batch time creates the
row with count 1; each of N further calls for the same batch time adds
exactly one to the count (yielding N+1) and refreshes the timestamp to
that call's; a call for a different batch time leaves the row
unchanged. -/
theorem progress_tracker_counts (L : List StatsRow) (t0 now2 bt bt2 : Int)
    (times : Nat → Int) (h : selectRow L bt = none) (hne : bt2 ≠ bt) :
    selectRow (record_success t0 bt L) bt = some ⟨bt, t0, 1, 0⟩
    ∧ (∀ N : Nat, selectRow (recordN times bt (record_success t0 bt L) N) bt
        = some ⟨bt, lastTime t0 times N, 1 + (N : Int), 0⟩)
    ∧ selectRow (record_success now2 bt2 (record_success t0 bt L)) bt
        = some ⟨bt, t0, 1, 0⟩ := by
  have h1 := selectRow_record_fresh L t0 bt h
  exact ⟨h1, fun N => recordN_count times bt N _ t0 1 0 h1,
    (selectRow_record_other (record_success t0 bt L) now2 bt bt2 hne).trans h1⟩

/-- C4 witness: ledger rows for batch times 5 and 7: the first call
creates count 1, three further calls give count 4 with the last
timestamp, and the call for batch time 7 leaves the row for 5 alone. -/
theorem progress_tracker_counts_witness :
    selectRow (record_success 100 5 []) 5 = some ⟨5, 100, 1, 0⟩
    ∧ selectRow (recordN (fun n => (n : Int)) 5 (record_success 100 5 []) 3) 5
        = some ⟨5, 2, 4, 0⟩
    ∧ selectRow (record_success 200 7 (record_success 100 5 [])) 5
        = some ⟨5, 100, 1, 0⟩ := by
  have h := progress_tracker_counts [] 100 200 5 7 (fun n => (n : Int)) rfl
    (by decide)
  exact ⟨h.1, h.2.1 3, h.2.2⟩

/-! ## Helper lemmas about the fetch loop -/

/-- The per-page loop increments the counter once per match, whatever
each match's outcome. -/
theorem processMatches_counter (modeEnum heroDict : Int → Option String)
    (btOf : Int → Int) (now : Int) :
    ∀ (ms : List RawMatch) (st st2 : DriverState),
      processMatches modeEnum heroDict btOf now ms st = some st2 →
      st2.counter = st.counter + (ms.length : Int) := by
  intro ms
  induction ms with
  | nil =>
    intro st st2 h
    simp only [processMatches, Option.some.injEq] at h
    rw [← h]
    simp
  | cons m rest ih =>
    intro st st2 h
    simp only [processMatches] at h
    by_cases hc :
        crashes (process_match modeEnum heroDict btOf (some 200) st.cache m).outcome
    · rw [if_pos hc] at h; cases h
    · rw [if_neg hc] at h
      have hrec := ih _ st2 h
      rw [hrec]
      show st.counter + 1 + (rest.length : Int) = st.counter + ((rest.length + 1 : Nat) : Int)
      push_cast
      ring

/-- One loop iteration on a page with results adds the page's match
count to the counter; one on an empty page adds nothing. -/
theorem stepPage_counter (modeEnum heroDict : Int → Option String)
    (btOf : Int → Int) (now : Int) (st : DriverState) (page : List RawMatch)
    (st2 : DriverState)
    (h : stepPage modeEnum heroDict btOf now st page = some st2) :
    st2.counter = st.counter + (page.length : Int) := by
  unfold stepPage at h
  by_cases hp : page.isEmpty
  · rw [if_pos hp] at h
    cases hms : st.lastMs with
    | none => rw [hms] at h; cases h
    | some ms =>
      rw [hms] at h
      dsimp only at h
      rw [← Option.some.inj h]
      have hlen : page.length = 0 := by
        rw [List.isEmpty_iff] at hp
        rw [hp]
        rfl
      rw [hlen]
      simp
  · rw [if_neg hp] at h
    cases hpm : processMatches modeEnum heroDict btOf now page st with
    | none => rw [hpm] at h; cases h
    | some st3 =>
      rw [hpm] at h
      dsimp only at h
      rw [← Option.some.inj h]
      exact processMatches_counter modeEnum heroDict btOf now page st st3 hpm

/-- C5 counterexample: on a trace whose first page holds eleven
short-duration matches and whose second page is non-empty, the fetch
loop stops after the first page with zero successful ingestions (no
storage write at all) although no quota of successes was reached and
the upstream still had results: rejected records drive the stopping
counter. -/
theorem driver_quota_counterexample :
    (runPages modeEnum0 heroDict0 btOf0 0 initState [exPage1, exPage2]).outcome
        = RunOutcome.stopped
    ∧ (runPages modeEnum0 heroDict0 btOf0 0 initState
        [exPage1, exPage2]).pagesFetched = 1
    ∧ ((runPages modeEnum0 heroDict0 btOf0 0 initState
        [exPage1, exPage2]).state.map (fun s => s.writes)) = some []
    ∧ ((runPages modeEnum0 heroDict0 btOf0 0 initState
        [exPage1, exPage2]).state.map (fun s => s.counter)) = some 11
    ∧ exPage2.length = 1 :=
  ⟨rfl, rfl, rfl, rfl, rfl⟩

/-- C5 (amended): the fetch loop stops fetching further pages exactly
when its counter exceeds MATCHES_PER_HERO, and that counter counts
every processed record — rejected, duplicated and failed ones included
— not successful ingestions: on stopping, the final counter is the
initial one plus the total match count of the fetched pages. -/
theorem driver_stops_by_total_count (modeEnum heroDict : Int → Option String)
    (btOf : Int → Int) (now : Int) :
    ∀ (pages : List (List RawMatch)) (st : DriverState),
      (runPages modeEnum heroDict btOf now st pages).outcome = RunOutcome.stopped →
      ∃ st2, (runPages modeEnum heroDict btOf now st pages).state = some st2
        ∧ MATCHES_PER_HERO < st2.counter
        ∧ st2.counter = st.counter
            + ((((pages.take
                  (runPages modeEnum heroDict btOf now st pages).pagesFetched).map
                  (fun p => p.length)).sum : Nat) : Int) := by
  intro pages
  induction pages with
  | nil =>
    intro st h
    simp only [runPages] at h ⊢
    by_cases hle : st.counter ≤ MATCHES_PER_HERO
    · rw [if_pos hle] at h; cases h
    · rw [if_neg hle] at h ⊢
      exact ⟨st, rfl, lt_of_not_le hle, by simp⟩
  | cons page rest ih =>
    intro st h
    simp only [runPages] at h ⊢
    by_cases hle : st.counter ≤ MATCHES_PER_HERO
    · rw [if_pos hle] at h ⊢
      cases hsp : stepPage modeEnum heroDict btOf now st page with
      | none => rw [hsp] at h; cases h
      | some st3 =>
        rw [hsp] at h
        dsimp only at h ⊢
        obtain ⟨st2, hstate, hgt, hcount⟩ := ih st3 h
        refine ⟨st2, hstate, hgt, ?_⟩
        rw [hcount,
          stepPage_counter modeEnum heroDict btOf now st page st3 hsp,
          List.take_succ_cons, List.map_cons, List.sum_cons]
        push_cast
        ring
    · rw [if_neg hle] at h ⊢
      exact ⟨st, rfl, lt_of_not_le hle, by simp⟩

/-- C5 witness: on the single bad page the loop stops with counter 11 =
0 + 11 processed records, exceeding the quota of 10. -/
theorem driver_stops_by_total_count_witness :
    ∃ st2, (runPages modeEnum0 heroDict0 btOf0 0 initState [exPage1]).state
        = some st2
      ∧ MATCHES_PER_HERO < st2.counter
      ∧ st2.counter = initState.counter
          + (((([exPage1].take
              (runPages modeEnum0 heroDict0 btOf0 0 initState
                [exPage1]).pagesFetched).map (fun p => p.length)).sum : Nat) : Int) :=
  driver_stops_by_total_count modeEnum0 heroDict0 btOf0 0 [exPage1] initState rfl

/-- The minimum of a non-empty id list is at most its head. -/
theorem minList_le_head (x : Int) (xs : List Int) : minList (x :: xs) ≤ x := by
  cases xs with
  | nil => exact le_refl x
  | cons y ys => exact min_le_left _ _

/-- A processed page with results sets the cursor to the minimum match
id of the page minus one. -/
theorem stepPage_cursor (modeEnum heroDict : Int → Option String)
    (btOf : Int → Int) (now : Int) (st : DriverState) (page : List RawMatch)
    (st2 : DriverState) (hne : page ≠ [])
    (h : stepPage modeEnum heroDict btOf now st page = some st2) :
    st2.cursor = minList (page.map (fun m => m.match_id)) - 1 := by
  unfold stepPage at h
  rw [if_neg (by simpa [List.isEmpty_iff] using hne)] at h
  cases hpm : processMatches modeEnum heroDict btOf now page st with
  | none => rw [hpm] at h; cases h
  | some st3 =>
    rw [hpm] at h
    dsimp only at h
    rw [← Option.some.inj h]

/-- C6: after each processed page with results, the next request's
cursor is the page's minimum match id minus one, and when the upstream
honours the cursor bound the cursor strictly decreases across
consecutive non-empty pages. -/
theorem cursor_advance (modeEnum heroDict : Int → Option String)
    (btOf : Int → Int) (now : Int) (st st1 st2 : DriverState)
    (p1 p2 : List RawMatch) (h1ne : p1 ≠ []) (h2ne : p2 ≠ [])
    (h1 : stepPage modeEnum heroDict btOf now st p1 = some st1)
    (h2 : stepPage modeEnum heroDict btOf now st1 p2 = some st2)
    (hb : ∀ m ∈ p2, m.match_id ≤ st1.cursor) :
    st1.cursor = minList (p1.map (fun m => m.match_id)) - 1
    ∧ st2.cursor = minList (p2.map (fun m => m.match_id)) - 1
    ∧ st2.cursor < st1.cursor := by
  have hc1 := stepPage_cursor modeEnum heroDict btOf now st p1 st1 h1ne h1
  have hc2 := stepPage_cursor modeEnum heroDict btOf now st1 p2 st2 h2ne h2
  refine ⟨hc1, hc2, ?_⟩
  obtain ⟨m0, p2x, rfl⟩ : ∃ m0 p2x, p2 = m0 :: p2x := by
    cases p2 with
    | nil => exact absurd rfl h2ne
    | cons a l => exact ⟨a, l, rfl⟩
  have hhead : minList ((m0 :: p2x).map (fun m => m.match_id)) ≤ m0.match_id :=
    minList_le_head _ _
  have hm0 : m0.match_id ≤ st1.cursor := hb m0 (List.mem_cons_self _ _)
  omega

/-- C6 witness: two concrete single-match pages with ids 1000 then 500:
the cursor goes from 9999999999 to 999 to 499, strictly decreasing. -/
theorem cursor_advance_witness :
    stepPage modeEnum0 heroDict0 btOf0 0 initState exPageA = some exStA
    ∧ stepPage modeEnum0 heroDict0 btOf0 0 exStA exPageB = some exStB
    ∧ (exStA.cursor = minList (exPageA.map (fun m => m.match_id)) - 1
      ∧ exStB.cursor = minList (exPageB.map (fun m => m.match_id)) - 1
      ∧ exStB.cursor < exStA.cursor) :=
  ⟨rfl, rfl,
    cursor_advance modeEnum0 heroDict0 btOf0 0 initState exStA exStB
      exPageA exPageB (by decide) (by decide) rfl rfl (by decide)⟩

/-- C8: the modelled compressor is lossless: decompressing the
compressed byte list gives back the input exactly, for every byte list
including the empty one. -/
theorem compress_roundtrip : ∀ b : List Nat, decompress (compress b) = b := by
  intro b
  induction b with
  | nil => rfl
  | cons x xs ih =>
    cases hc : compress xs with
    | nil =>
      have hxs : xs = [] := by
        rw [hc] at ih
        exact ih.symm.trans rfl
      subst hxs
      rfl
    | cons n rest1 =>
      cases rest1 with
      | nil =>
        have hxs : xs = [] := by
          rw [hc] at ih
          rw [← ih]
          rfl
        subst hxs
        simp [compress] at hc
      | cons y rest =>
        rw [compress, hc]
        dsimp only
        rw [hc, decompress] at ih
        by_cases hxy : x = y
        · rw [if_pos hxy, decompress, List.replicate_succ, List.cons_append,
            ih, hxy]
        · rw [if_neg hxy, decompress, decompress, ih]
          rfl

end DotaStats
